import Mathlib

set_option maxRecDepth 8000

/-!
Verification development for the YouTubeDownloaderBot (src/bot.py), a
Telegram chat bot that downloads YouTube videos with yt-dlp and re-sends
them. Python strings are modelled as lists of characters; the filesystem,
the Telegram transport, the yt-dlp subprocess and ffmpeg are external
capabilities and enter the model as explicit inputs (oracle values that
record how each external call would answer). All definitions below are
translated from the Python source; the one definition translated from the
specification text instead is clearly marked.
-/

namespace YtBot

/-! ## String machinery (Python str operations on List Char) -/

/-- Python str.split for a single-character separator. -/
def splitOnChar (sep : Char) : List Char → List (List Char)
  | [] => [[]]
  | c :: rest =>
    match splitOnChar sep rest with
    | [] => [[c]]
    | h :: t => if c = sep then [] :: h :: t else (c :: h) :: t

/-- Python str.startswith: first argument is the string, second the pattern. -/
def startsWith : List Char → List Char → Bool
  | _, [] => true
  | [], _ :: _ => false
  | c :: s, p :: ps => c == p && startsWith s ps

/-- Python substring membership test (pat in s). -/
def hasSub (s pat : List Char) : Bool :=
  match s with
  | [] => pat.isEmpty
  | _ :: rest => startsWith s pat || hasSub rest pat

/-- The whitespace characters removed by Python str.strip(). -/
def isPySpace (c : Char) : Bool :=
  c == ' ' || c == '\t' || c == '\n' || c == '\r' || c == Char.ofNat 11 || c == Char.ofNat 12

/-- Python str.strip(). -/
def pyStrip (s : List Char) : List Char :=
  ((s.dropWhile isPySpace).reverse.dropWhile isPySpace).reverse

/-- Python str.lower (ASCII case folding, which covers the URL patterns used). -/
def lower (s : List Char) : List Char := s.map Char.toLower

/-- Python str.endswith: first argument is the string, second the suffix. -/
def endsWithL (s suf : List Char) : Bool := startsWith s.reverse suf.reverse

/-- An occurrence of m as a contiguous segment of l. -/
def Seg (m l : List Char) : Prop := ∃ a b, l = a ++ m ++ b

/-! ## CookieStore (check_cookies_file, validate_cookies_file, backups) -/

/-- A file on disk: the size reported by the filesystem and the text content. -/
structure CookiesFile where
  size : Nat
  content : List Char
deriving DecidableEq

def dotYoutubeCom : List Char := ".youtube.com".data
def youtubeCom : List Char := "youtube.com".data
def dotYoutuBe : List Char := ".youtu.be".data
def youtuBe : List Char := "youtu.be".data
def netscapeHeader : List Char := "# Netscape HTTP Cookie File".data

inductive CookieFormat
  | netscape
  | unknown
deriving DecidableEq

structure CookiesMeta where
  size : Nat
  format : CookieFormat
  line_count : Nat
  domain_count : Nat
deriving DecidableEq

/-- count_lines: the number of lines Python file iteration yields. -/
def count_lines (content : List Char) : Nat :=
  let parts := splitOnChar '\n' content
  match parts.getLast? with
  | some [] => parts.length - 1
  | _ => parts.length

/-- count_domains: distinct first fields of non-comment lines that split into
at least five tab-separated parts. -/
def count_domains (content : List Char) : Nat :=
  let ls := splitOnChar '\n' content
  let ds := ls.filterMap (fun line =>
    if !(pyStrip line).isEmpty && !startsWith line ['#'] then
      let parts := splitOnChar '\t' (pyStrip line)
      if 5 ≤ parts.length then parts.head? else none
    else none)
  ds.dedup.length

/-- check_cookies_file: returns the pair (cookies_available, cookies_metadata).
A missing file or an I/O error yields (false, none). The availability flag
depends only on the size bound; the metadata additionally records the format
tag and the line and domain counts. -/
def check_cookies_file (f : Option CookiesFile) : Bool × Option CookiesMeta :=
  match f with
  | none => (false, none)
  | some cf =>
    let first_line := pyStrip ((splitOnChar '\n' cf.content).headD [])
    let available := decide (cf.size > 100)
    let meta : CookiesMeta :=
      { size := cf.size
        format := if startsWith first_line "# Netscape".data then .netscape else .unknown
        line_count := count_lines cf.content
        domain_count := count_domains cf.content }
    (available, some meta)

/-- Following the words of the specification (not the code): a cookie file is
usable only if its size exceeds 100 bytes and at least one entry domain
matches the target content provider. Stated for comparison with
check_cookies_file. -/
def specUsable (cf : CookiesFile) : Bool :=
  decide (cf.size > 100) &&
    (hasSub cf.content dotYoutubeCom || hasSub cf.content youtubeCom ||
      hasSub cf.content dotYoutuBe)

/-- Rejection and acceptance reasons of validate_cookies_file; the exact
message strings carry the same case split and are UI text. -/
inductive ValidateReason
  | fileDoesNotExist
  | tooSmall
  | tooLarge
  | noYouTubeCookies
  | invalidFormat
  | valid
deriving DecidableEq

/-- validate_cookies_file: size window, YouTube-domain presence, and a
format sanity check (Netscape header, or at least one line with seven or
more tab-separated fields). The important-cookie scan in the source only
feeds the human-readable summary string and is elided with the UI text. -/
def validate_cookies_file (f : Option CookiesFile) : Bool × ValidateReason :=
  match f with
  | none => (false, .fileDoesNotExist)
  | some cf =>
    if cf.size < 100 then (false, .tooSmall)
    else if 1024 * 1024 < cf.size then (false, .tooLarge)
    else
      let first_line := pyStrip ((splitOnChar '\n' cf.content).headD [])
      let is_netscape := startsWith first_line netscapeHeader
      let has_youtube_cookies :=
        hasSub cf.content dotYoutubeCom || hasSub cf.content youtubeCom ||
          hasSub cf.content dotYoutuBe
      if !has_youtube_cookies then (false, .noYouTubeCookies)
      else
        let cookie_lines :=
          ((splitOnChar '\n' cf.content).filter (fun line =>
            let l := pyStrip line
            !l.isEmpty && !startsWith l ['#'] &&
              decide (7 ≤ (splitOnChar '\t' l).length))).length
        if cookie_lines = 0 && !is_netscape then (false, .invalidFormat)
        else (true, .valid)

/-- Filesystem state owned by the cookie store: the active cookie file and
the backup directory, holding timestamped copies. -/
structure CookieFS where
  cookie : Option CookiesFile
  backups : List (Nat × CookiesFile)
deriving DecidableEq

/-- backup_current_cookies: copies the active file into the backup directory
under a name carrying the current timestamp; returns none when no active
file exists, and also when the copy itself fails (the except branch logs
the error and returns None). copyOk is the oracle answer of the external
shutil.copy2 call. -/
def backup_current_cookies (now : Nat) (copyOk : Bool) (fs : CookieFS) :
    CookieFS × Option Nat :=
  match fs.cookie with
  | some c =>
    if copyOk then ({ fs with backups := (now, c) :: fs.backups }, some now)
    else (fs, none)
  | none => (fs, none)

/-- The replacement tail of handle_cookies_upload: validate the candidate,
then backup the current file and copy the candidate into place. The backup
result is ignored, so the replacement proceeds even when the backup copy
failed. Returns the new filesystem state and whether the replacement
happened. -/
def handle_cookies_upload (now : Nat) (copyOk : Bool) (candidate : CookiesFile)
    (fs : CookieFS) : CookieFS × Bool :=
  if (validate_cookies_file (some candidate)).1 then
    let fs1 := (backup_current_cookies now copyOk fs).1
    ({ fs1 with cookie := some candidate }, true)
  else (fs, false)

/-- The delete_cookies_yes callback branch: backup first (result ignored,
so the removal proceeds even when the backup copy failed), then remove the
active file when it exists. -/
def delete_cookies_confirmed (now : Nat) (copyOk : Bool) (fs : CookieFS) : CookieFS :=
  let fs1 := (backup_current_cookies now copyOk fs).1
  match fs1.cookie with
  | some _ => { fs1 with cookie := none }
  | none => fs1

/-! ## Access control and sessions -/

/-- check_user_access: an empty allow-list admits every user; otherwise the
decimal string form of the user id must be a member. -/
def check_user_access (allowed_users : List String) (user_id : Nat) : Bool :=
  if allowed_users.isEmpty then true
  else allowed_users.contains (toString user_id)

inductive Phase
  | waitingForUrl
  | waitingForBatch
  | waitingForBatchResolution
deriving DecidableEq

/-- One user_states entry (the per-user conversational state dictionary). -/
structure Session where
  phase : Phase
  chosenRes : Option String
  message_id : Nat
deriving DecidableEq

/-- user_states is a Python dict keyed by user id, so each user holds at most
one session; modelled as a finite-support map. -/
def UserStates : Type := Nat → Option Session

inductive YtReply
  | notAuthorized
  | tooManyDownloads
  | finishCurrentFirst
  | resolutionPrompt
deriving DecidableEq

/-- The yt_command handler: access check, per-user concurrency check, the
one-session check, then creation of the waiting-for-url session together
with the resolution prompt. -/
def yt_command (allowed_users : List String) (states : UserStates)
    (active_download_users : List Nat) (max_concurrent : Nat)
    (user_id message_id : Nat) : UserStates × YtReply :=
  if check_user_access allowed_users user_id = false then (states, .notAuthorized)
  else if max_concurrent ≤ (active_download_users.filter (fun u => u == user_id)).length then
    (states, .tooManyDownloads)
  else
    match states user_id with
    | some _ => (states, .finishCurrentFirst)
    | none =>
      (fun u => if u = user_id then some ⟨.waitingForUrl, none, message_id⟩ else states u,
        .resolutionPrompt)

/-! ## URL validation -/

/-- The quote-removal step of validate_youtube_url (replace of the double
and single quote characters by the empty string). -/
def removeQuotes (s : List Char) : List Char :=
  s.filter (fun c => !(c == Char.ofNat 34 || c == Char.ofNat 39))

/-- URL cleaning in validate_youtube_url: strip, then drop quotes. -/
def cleanUrl (url : List Char) : List Char := removeQuotes (pyStrip url)

/-- validate_youtube_url. The seven re.match patterns run in the external
Python regex library and are passed in as an opaque matcher on the cleaned
URL; whenever no pattern matches, a string whose lowercase form contains
youtube.com or youtu.be is still accepted. -/
def validate_youtube_url (patternsMatch : List Char → Bool) (url : List Char) : Bool :=
  let u := cleanUrl url
  if patternsMatch u then true
  else if hasSub (lower u) youtubeCom || hasSub (lower u) youtuBe then true
  else false

/-! ## The download pipeline (process_video) -/

/-- The configuration fields the pipeline claims concern. max_duration is
read from MAX_DURATION at startup and displayed in the help text; nothing
else in the source consults it. -/
structure Config where
  max_duration : Nat
  max_file_size : Nat
deriving DecidableEq

/-- A file in the per-user temp directory after the download subprocess. -/
structure TempFile where
  name : List Char
  size : Nat
deriving DecidableEq

def mp4Ext : List Char := ".mp4".data

/-- Output selection after the download subprocess exits: glob *.mp4, fall
back to any file with an extension, take the first entry. -/
def selectOutput (files : List TempFile) : Option TempFile :=
  let mp4s := files.filter (fun f => endsWithL f.name mp4Ext)
  let outs := if mp4s.isEmpty then files.filter (fun f => f.name.contains '.') else mp4s
  outs.head?

/-- How the Telegram send_video call answers: success, a FloodWait rate
limit carrying the provider wait in seconds, another RPCError, or a
non-provider exception. -/
inductive SendOutcome
  | ok
  | floodWait (seconds : Nat)
  | rpcError
  | otherError
deriving DecidableEq

/-- The data assembled into the upload caption (the surrounding markdown is
UI text). -/
structure Caption where
  title : String
  resolution : String
  duration : Nat
  size : Nat
  url : String
deriving DecidableEq

inductive DeliveryAction
  | sendVideoAttempt (caption : Caption) (thumb : Option String)
  | sleepSeconds (n : Nat)
  | sendDocumentAttempt (caption : Caption) (thumb : Option String)
deriving DecidableEq

/-- The user-visible terminal reports of process_video relevant here. -/
inductive Msg
  | downloadFailedNoFile
  | fileTooLarge
  | sentSuccessfully
  | sentAsDocument
  | uploadFailed
  | cancelAck
deriving DecidableEq

/-- The upload phase of process_video: try send_video; on FloodWait sleep
the provider value plus one second and retry send_video once (a failure of
the retry escapes to the enclosing handler, so there is no further retry
and no fallback); on any other RPCError fall back to send_document with the
same caption and thumbnail; any other exception reaches the enclosing
handler. Returns the trace of external calls and the final report. -/
def deliver (caption : Caption) (thumb : Option String)
    (firstSend retrySend : SendOutcome) (fallbackOk : Bool) :
    List DeliveryAction × Msg :=
  match firstSend with
  | .ok => ([.sendVideoAttempt caption thumb], .sentSuccessfully)
  | .floodWait n =>
    let trace := [.sendVideoAttempt caption thumb, .sleepSeconds (n + 1),
      .sendVideoAttempt caption thumb]
    match retrySend with
    | .ok => (trace, .sentSuccessfully)
    | _ => (trace, .uploadFailed)
  | .rpcError =>
    let trace := [.sendVideoAttempt caption thumb, .sendDocumentAttempt caption thumb]
    if fallbackOk then (trace, .sentAsDocument) else (trace, .uploadFailed)
  | .otherError => ([.sendVideoAttempt caption thumb], .uploadFailed)

/-- Oracle answers of the external capabilities consumed by one
process_video run: the temp directory contents once the download subprocess
ends, whether ffmpeg.probe succeeds and the duration it reports, the
thumbnail produced (generate_thumbnail absorbs its own failures), and the
outcomes of the Telegram send calls. -/
structure Env where
  tempFiles : List TempFile
  probeOk : Bool
  probeDuration : Nat
  thumb : Option String
  firstSend : SendOutcome
  retrySend : SendOutcome
  fallbackOk : Bool
deriving DecidableEq

/-- process_video after the download subprocess exits without cancellation:
locate the output file, probe it, generate the thumbnail, apply the file
size gate, build the caption and deliver. A probe failure is caught by the
surrounding upload handler. -/
def afterDownload (cfg : Config) (env : Env) (title resolutionStr url : String) :
    Msg × List DeliveryAction :=
  match selectOutput env.tempFiles with
  | none => (.downloadFailedNoFile, [])
  | some v =>
    if env.probeOk = false then (.uploadFailed, [])
    else if cfg.max_file_size < v.size then (.fileTooLarge, [])
    else
      let caption : Caption := ⟨title, resolutionStr, env.probeDuration, v.size, url⟩
      let (acts, m) := deliver caption env.thumb env.firstSend env.retrySend env.fallbackOk
      (m, acts)

inductive LoopExit
  | cancelledAt (i : Nat)
  | completedAt (i : Nat)
  | running
deriving DecidableEq

/-- The monitor loop of process_video, one iteration per second: first check
the cancellation flag (terminate the subprocess and break when set), else
wait up to one second for the subprocess to finish. cancelled i and
finished i give the flag and the subprocess state as observed during
iteration i; fuel bounds the modelled iterations. -/
def monitorLoop (cancelled finished : Nat → Bool) : Nat → Nat → LoopExit
  | _, 0 => .running
  | i, fuel + 1 =>
    if cancelled i then .cancelledAt i
    else if finished i then .completedAt i
    else monitorLoop cancelled finished (i + 1) fuel

/-- Observable outcome of one process_video run. The download subprocess is
spawned unconditionally before the monitor loop, so downloadAttempted is
true on every completed run; the finally block always removes the per-user
temp directory and deregisters the task. -/
structure PipelineResult where
  downloadAttempted : Bool
  processTerminated : Bool
  msg : Option Msg
  actions : List DeliveryAction
  tempFilesLeft : List TempFile
deriving DecidableEq

/-- process_video from the moment the yt-dlp subprocess is spawned: monitor
loop, the cancellation cleanup branch (terminate, report the cancellation,
remove the temp directory, deregister, return), then output check, probe,
size gate and upload; none models a run still inside the loop after fuel
iterations. The post-loop cancellation re-check reads the flag one instant
after the loop exits. -/
def process_video (cfg : Config) (env : Env) (cancelled finished : Nat → Bool)
    (fuel : Nat) (title resolutionStr url : String) : Option PipelineResult :=
  match monitorLoop cancelled finished 0 fuel with
  | .running => none
  | .cancelledAt _ =>
    some { downloadAttempted := true, processTerminated := true,
           msg := some .cancelAck, actions := [], tempFilesLeft := [] }
  | .completedAt i =>
    if cancelled (i + 1) then
      some { downloadAttempted := true, processTerminated := false,
             msg := none, actions := [], tempFilesLeft := [] }
    else
      let (m, acts) := afterDownload cfg env title resolutionStr url
      some { downloadAttempted := true, processTerminated := false,
             msg := some m, actions := acts, tempFilesLeft := [] }

/-! ## Concrete inputs used by witnesses and counterexamples -/

def c1cfg : Config := ⟨1800, 1500000000⟩
def c1env : Env := ⟨[⟨"video.mp4".data, 52428800⟩], true, 4000, none, .ok, .ok, true⟩

def c2content : List Char :=
  ("# Netscape HTTP Cookie File\n.example.com\tTRUE\t/\tFALSE\t1700000000\tSID\tabcdef123456\n.example.com\tTRUE\t/\tFALSE\t1700000000\tHSID\tzyxwvut\n").data
def c2file : CookiesFile := ⟨c2content.length, c2content⟩

def c3states : UserStates := fun u => if u = 7 then some ⟨Phase.waitingForUrl, none, 3⟩ else none

def c4content : List Char :=
  ("# Netscape HTTP Cookie File\n.youtube.com\tTRUE\t/\tTRUE\t1799999999\tLOGIN_INFO\tAFmmF2swRQtestvalue\n.youtube.com\tTRUE\t/\tTRUE\t1799999999\tSID\tabc123\n").data
def c4cand : CookiesFile := ⟨c4content.length, c4content⟩
def c4old : CookiesFile := ⟨15, "old cookie data".data⟩
def c4fs : CookieFS := ⟨some c4old, []⟩

def c5cfg : Config := ⟨1800, 1500000000⟩
def c5env : Env := ⟨[], true, 0, none, .ok, .ok, true⟩

def c6cfg : Config := ⟨1800, 1500000000⟩
def c6env : Env := ⟨[⟨"video.mp4".data, 0⟩], true, 240, none, .ok, .ok, true⟩
def c6wcfg : Config := ⟨1800, 1000000⟩
def c6wenv : Env := ⟨[⟨"a.mp4".data, 5⟩], true, 60, none, .ok, .ok, true⟩
def c6wres : PipelineResult :=
  ⟨true, false, some .sentSuccessfully, [.sendVideoAttempt ⟨"t", "720", 60, 5, "u"⟩ none], []⟩

def c9url : List Char := "echo pwned && curl WWW.YOUTUBE.COM/watch?v=x; rm -rf /tmp/x".data

/-! ## Helper lemmas -/

theorem startsWith_iff (p : List Char) : ∀ s, startsWith s p = true ↔ ∃ b, s = p ++ b := by
  induction p with
  | nil =>
    intro s
    constructor
    · intro _; exact ⟨s, rfl⟩
    · intro _; cases s <;> rfl
  | cons q ps ih =>
    intro s
    cases s with
    | nil =>
      simp [startsWith]
    | cons c s' =>
      simp only [startsWith, Bool.and_eq_true, beq_iff_eq, ih s', List.cons_append,
        List.cons.injEq]
      constructor
      · rintro ⟨hc, b, hb⟩; exact ⟨b, hc, hb⟩
      · rintro ⟨b, hc, hb⟩; exact ⟨hc, b, hb⟩

theorem hasSub_iff (pat : List Char) : ∀ s, hasSub s pat = true ↔ Seg pat s := by
  intro s
  induction s with
  | nil =>
    simp only [hasSub, Seg, List.isEmpty_iff]
    constructor
    · rintro rfl; exact ⟨[], [], rfl⟩
    · rintro ⟨a, b, hab⟩
      have := hab.symm
      simp only [List.append_assoc, List.append_eq_nil] at this
      exact this.2.1
  | cons c s' ih =>
    constructor
    · intro h
      simp only [hasSub, Bool.or_eq_true] at h
      rcases h with h | h
      · rcases (startsWith_iff pat (c :: s')).mp h with ⟨b, hb⟩
        exact ⟨[], b, by simpa using hb⟩
      · rcases ih.mp h with ⟨a, b, hab⟩
        exact ⟨c :: a, b, by simp [hab]⟩
    · rintro ⟨a, b, hab⟩
      cases a with
      | nil =>
        simp only [List.nil_append] at hab
        have hsw : startsWith (c :: s') pat = true :=
          (startsWith_iff pat _).mpr ⟨b, hab⟩
        simp [hasSub, hsw]
      | cons x a' =>
        simp only [List.cons_append, List.cons.injEq] at hab
        have hsb : hasSub s' pat = true := ih.mpr ⟨a', b, hab.2⟩
        simp [hasSub, hsb]

theorem seg_map (f : Char → Char) {m l : List Char} (h : Seg m l) :
    Seg (m.map f) (l.map f) := by
  rcases h with ⟨a, b, rfl⟩
  exact ⟨a.map f, b.map f, by simp⟩

theorem seg_reverse {m l : List Char} (h : Seg m l) : Seg m.reverse l.reverse := by
  rcases h with ⟨a, b, rfl⟩
  exact ⟨b.reverse, a.reverse, by simp [List.reverse_append, List.append_assoc]⟩

theorem seg_dropWhile (p : Char → Bool) {m : List Char} (hne : m ≠ [])
    (hall : ∀ c ∈ m, p c = false) : ∀ {l}, Seg m l → Seg m (l.dropWhile p) := by
  intro l
  induction l with
  | nil =>
    rintro ⟨a, b, hab⟩
    have := hab.symm
    simp only [List.append_assoc, List.append_eq_nil] at this
    exact absurd this.2.1 hne
  | cons c l' ih =>
    rintro ⟨a, b, hab⟩
    by_cases hp : p c = true
    · rw [List.dropWhile_cons_of_pos hp]
      cases a with
      | nil =>
        simp only [List.nil_append] at hab
        cases m with
        | nil => exact absurd rfl hne
        | cons d m'' =>
          simp only [List.cons_append, List.cons.injEq] at hab
          have hd : p d = false := hall d (by simp)
          rw [← hab.1] at hd
          rw [hd] at hp
          exact Bool.noConfusion hp
      | cons x a' =>
        simp only [List.cons_append, List.cons.injEq] at hab
        exact ih ⟨a', b, hab.2⟩
    · rw [List.dropWhile_cons_of_neg hp]
      exact ⟨a, b, hab⟩

theorem seg_filter (q : Char → Bool) {m l : List Char}
    (hall : ∀ c ∈ m, q c = true) (h : Seg m l) : Seg m (l.filter q) := by
  rcases h with ⟨a, b, rfl⟩
  refine ⟨a.filter q, b.filter q, ?_⟩
  have hm : m.filter q = m := List.filter_eq_self.mpr hall
  simp [List.filter_append, hm]

theorem map_eq_append_split (f : Char → Char) :
    ∀ (a : List Char) (l b : List Char), l.map f = a ++ b →
      ∃ p1 p2, l = p1 ++ p2 ∧ p1.map f = a ∧ p2.map f = b := by
  intro a
  induction a with
  | nil =>
    intro l b h
    exact ⟨[], l, by simp, rfl, by simpa using h⟩
  | cons x a' ih =>
    intro l b h
    cases l with
    | nil => simp at h
    | cons y l' =>
      simp only [List.map_cons, List.cons_append, List.cons.injEq] at h
      rcases ih l' b h.2 with ⟨p1, p2, rfl, hp1, hp2⟩
      exact ⟨y :: p1, p2, rfl, by simp [h.1, hp1], hp2⟩

theorem toLower_pySpace {c : Char} (h : isPySpace c = true) : c.toLower = c := by
  simp only [isPySpace, Bool.or_eq_true, beq_iff_eq] at h
  rcases h with ((((h | h) | h) | h) | h) | h <;> subst h <;> decide

theorem seg_clean {pat : List Char} (hne : pat ≠ [])
    (hsp : ∀ c ∈ pat, isPySpace c = false)
    (hq : Char.ofNat 34 ∉ pat) (ha : Char.ofNat 39 ∉ pat)
    {url : List Char} (h : Seg pat (lower url)) : Seg pat (lower (cleanUrl url)) := by
  rcases h with ⟨a, b, hab⟩
  rcases map_eq_append_split Char.toLower a url (pat ++ b)
      (by simpa [lower, List.append_assoc] using hab) with ⟨u1, u2, rfl, hu1, hu2⟩
  rcases map_eq_append_split Char.toLower pat u2 b hu2 with ⟨m, u3, rfl, hm, hu3⟩
  have hmne : m ≠ [] := by
    intro h0
    rw [h0] at hm
    exact hne hm.symm
  have hchars : ∀ c ∈ m, c.toLower ∈ pat := by
    intro c hc
    rw [← hm]
    exact List.mem_map_of_mem _ hc
  have hmsp : ∀ c ∈ m, isPySpace c = false := by
    intro c hc
    cases hx : isPySpace c with
    | false => rfl
    | true =>
      have h1 : c.toLower = c := toLower_pySpace hx
      have h2 : c ∈ pat := h1 ▸ hchars c hc
      rw [hsp c h2] at hx
      exact Bool.noConfusion hx
  have hmq : ∀ c ∈ m, (!(c == Char.ofNat 34 || c == Char.ofNat 39)) = true := by
    intro c hc
    have ht := hchars c hc
    by_cases h34 : c = Char.ofNat 34
    · rw [h34, show (Char.ofNat 34).toLower = Char.ofNat 34 from by decide] at ht
      exact absurd ht hq
    · by_cases h39 : c = Char.ofNat 39
      · rw [h39, show (Char.ofNat 39).toLower = Char.ofNat 39 from by decide] at ht
        exact absurd ht ha
      · simp [h34, h39]
  have hseg : Seg m (u1 ++ (m ++ u3)) := ⟨u1, u3, by simp [List.append_assoc]⟩
  have h1 : Seg m ((u1 ++ (m ++ u3)).dropWhile isPySpace) :=
    seg_dropWhile isPySpace hmne hmsp hseg
  have h2 := seg_reverse h1
  have h3 : Seg m.reverse
      ((((u1 ++ (m ++ u3)).dropWhile isPySpace).reverse).dropWhile isPySpace) :=
    seg_dropWhile isPySpace (by simpa using hmne)
      (by intro c hc; exact hmsp c (by simpa using hc)) h2
  have h4 : Seg m (pyStrip (u1 ++ (m ++ u3))) := by
    have h5 := seg_reverse h3
    rw [List.reverse_reverse] at h5
    exact h5
  have h6 : Seg m (cleanUrl (u1 ++ (m ++ u3))) :=
    seg_filter _ hmq h4
  have h7 := seg_map Char.toLower h6
  rw [hm] at h7
  exact h7

theorem monitorLoop_cancel_exit (c f : Nat → Bool) :
    ∀ (k j fuel : Nat), (∀ i, i < k → c (j + i) = false) →
      (∀ i, i < k → f (j + i) = false) → c (j + k) = true → k < fuel →
      monitorLoop c f j fuel = .cancelledAt (j + k) := by
  intro k
  induction k with
  | zero =>
    intro j fuel _ _ hk hfuel
    cases fuel with
    | zero => omega
    | succ n =>
      have hk' : c j = true := by simpa using hk
      simp [monitorLoop, hk']
  | succ k ih =>
    intro j fuel hc hf hk hfuel
    cases fuel with
    | zero => omega
    | succ n =>
      have hc0 : c j = false := by simpa using hc 0 (by omega)
      have hf0 : f j = false := by simpa using hf 0 (by omega)
      have hrec : monitorLoop c f (j + 1) n = .cancelledAt (j + 1 + k) := by
        apply ih
        · intro i hi
          have hx := hc (i + 1) (by omega)
          have e : j + (i + 1) = j + 1 + i := by omega
          rwa [e] at hx
        · intro i hi
          have hx := hf (i + 1) (by omega)
          have e : j + (i + 1) = j + 1 + i := by omega
          rwa [e] at hx
        · have e : j + (k + 1) = j + 1 + k := by omega
          rwa [e] at hk
        · omega
      have e2 : j + 1 + k = j + (k + 1) := by omega
      rw [e2] at hrec
      simp [monitorLoop, hc0, hf0, hrec]

/-! ## Claim theorems -/

/-- Claim C1 (code bug evidence): with resolved duration 4000 seconds
against a configured limit of 1800 seconds, process_video still attempts
the download and, with the external calls succeeding, uploads the video and
reports success; no duration gate exists between metadata resolution and
the download. -/
theorem duration_limit_never_enforced :
    c1cfg.max_duration = 1800 ∧ c1env.probeDuration = 4000 ∧
    process_video c1cfg c1env (fun _ => false) (fun _ => true) 1 "t" "720" "u" =
      some { downloadAttempted := true, processTerminated := false,
             msg := some Msg.sentSuccessfully,
             actions := [DeliveryAction.sendVideoAttempt ⟨"t", "720", 4000, 52428800, "u"⟩ none],
             tempFilesLeft := [] } := by
  refine ⟨rfl, rfl, ?_⟩
  decide

/-- Claim C2 counterexample: a cookie file of 132 bytes whose entries all
belong to example.com is reported available by check_cookies_file, even
though no entry domain matches the provider, so availability does not
require a provider-domain match. -/
theorem cookies_available_ignores_domains :
    (check_cookies_file (some c2file)).1 = true ∧ specUsable c2file = false := by
  decide

/-- Claim C2 (amended): cookies_available is true exactly when the file
exists, is readable, and its size exceeds 100 bytes; the entry domains are
not consulted. -/
theorem cookies_available_iff_size (f : Option CookiesFile) :
    (check_cookies_file f).1 = true ↔ ∃ cf, f = some cf ∧ 100 < cf.size := by
  cases f with
  | none => simp [check_cookies_file]
  | some cf => simp [check_cookies_file]

/-- Claim C3: while a session exists for the user, a second /yt command
leaves the whole session map (and hence the stored session and its fields)
unchanged and does not answer with the resolution prompt that would start a
new download. -/
theorem second_yt_command_rejected (allowed : List String) (states : UserStates)
    (active : List Nat) (mc uid mid : Nat) (s : Session)
    (h : states uid = some s) :
    (yt_command allowed states active mc uid mid).1 = states ∧
    (yt_command allowed states active mc uid mid).2 ≠ YtReply.resolutionPrompt := by
  unfold yt_command
  split_ifs with h1 h2
  · exact ⟨rfl, by simp⟩
  · exact ⟨rfl, by simp⟩
  · rw [h]
    exact ⟨rfl, by simp⟩

/-- Witness for claim C3 at a concrete session map. -/
theorem second_yt_command_rejected_witness :
    (yt_command [] c3states [] 1 7 9).1 = c3states ∧
    (yt_command [] c3states [] 1 7 9).2 ≠ YtReply.resolutionPrompt :=
  second_yt_command_rejected [] c3states [] 1 7 9 ⟨Phase.waitingForUrl, none, 3⟩ rfl

/-- Claim C4 counterexample: with a prior cookie file present but the
external backup copy failing (the except branch logs the error and returns
None, and both callers ignore the result), the upload handler still
replaces the cookie file and the delete callback still removes it, and
afterwards the backup directory holds no backup at all of the prior
content. -/
theorem replace_delete_without_backup :
    c4fs.cookie = some c4old ∧
    (validate_cookies_file (some c4cand)).1 = true ∧
    (handle_cookies_upload 5 false c4cand c4fs).1.cookie = some c4cand ∧
    (handle_cookies_upload 5 false c4cand c4fs).1.backups = [] ∧
    (delete_cookies_confirmed 5 false c4fs).cookie = none ∧
    (delete_cookies_confirmed 5 false c4fs).backups = [] := by
  decide

/-- Claim C4 (amended): when a prior cookie file exists and the backup copy
operation succeeds, both the replacement path of handle_cookies_upload (on
a valid candidate) and the confirmed delete leave a backup of the prior
content in the backup directory, timestamped at or before the operation;
when the copy fails, the operations still complete and no backup is
guaranteed. -/
theorem backup_before_replace_delete (now : Nat) (cand : CookiesFile) (fs : CookieFS)
    (c : CookiesFile) (h : fs.cookie = some c) :
    ((validate_cookies_file (some cand)).1 = true →
      ∃ t, t ≤ now ∧ (t, c) ∈ (handle_cookies_upload now true cand fs).1.backups) ∧
    (∃ t, t ≤ now ∧ (t, c) ∈ (delete_cookies_confirmed now true fs).backups) := by
  constructor
  · intro hv
    refine ⟨now, le_refl now, ?_⟩
    simp [handle_cookies_upload, hv, backup_current_cookies, h]
  · refine ⟨now, le_refl now, ?_⟩
    simp [delete_cookies_confirmed, backup_current_cookies, h]

/-- Witness for claim C4 at a concrete filesystem state and candidate. -/
theorem backup_before_replace_delete_witness :
    (∃ t, t ≤ 5 ∧ (t, c4old) ∈ (handle_cookies_upload 5 true c4cand c4fs).1.backups) ∧
    (∃ t, t ≤ 5 ∧ (t, c4old) ∈ (delete_cookies_confirmed 5 true c4fs).backups) := by
  have h := backup_before_replace_delete 5 c4cand c4fs c4old rfl
  exact ⟨h.1 (by decide), h.2⟩

/-- Claim C5: if the cancellation flag is set at polling instant k while the
download subprocess is still in flight, the monitor loop exits in that same
polling interval, the subprocess is terminated, the per-user temp directory
is left with zero files, and the reported outcome is the cancellation
acknowledgment, not an error report. -/
theorem cancellation_within_one_poll (cfg : Config) (env : Env)
    (cancelled finished : Nat → Bool) (k fuel : Nat) (title resolutionStr url : String)
    (hc : ∀ i, i < k → cancelled i = false)
    (hf : ∀ i, i < k → finished i = false)
    (hk : cancelled k = true) (hfuel : k < fuel) :
    monitorLoop cancelled finished 0 fuel = LoopExit.cancelledAt k ∧
    process_video cfg env cancelled finished fuel title resolutionStr url =
      some { downloadAttempted := true, processTerminated := true,
             msg := some Msg.cancelAck, actions := [], tempFilesLeft := [] } := by
  have hexit : monitorLoop cancelled finished 0 fuel = LoopExit.cancelledAt (0 + k) := by
    apply monitorLoop_cancel_exit cancelled finished k 0 fuel
    · intro i hi; simpa using hc i hi
    · intro i hi; simpa using hf i hi
    · simpa using hk
    · exact hfuel
  rw [Nat.zero_add] at hexit
  exact ⟨hexit, by simp [process_video, hexit]⟩

/-- Witness for claim C5: the flag set at instant 1 cancels the run. -/
theorem cancellation_within_one_poll_witness :
    process_video c5cfg c5env (fun i => decide (1 ≤ i)) (fun _ => false) 3 "t" "720" "u" =
      some { downloadAttempted := true, processTerminated := true,
             msg := some Msg.cancelAck, actions := [], tempFilesLeft := [] } :=
  (cancellation_within_one_poll c5cfg c5env (fun i => decide (1 ≤ i)) (fun _ => false) 1 3
    "t" "720" "u"
    (by
      intro i hi
      show decide (1 ≤ i) = false
      have hz : i = 0 := by omega
      subst hz
      decide)
    (fun i _ => rfl) (by decide) (by decide)).2

/-- Claim C6 counterexample: the post-download output check only tests that
a file is present, so a run whose only output file has length zero passes
it and, with the external probe and send calls succeeding, ends in the
success report. -/
theorem zero_length_output_reported_success :
    selectOutput c6env.tempFiles = some ⟨"video.mp4".data, 0⟩ ∧
    process_video c6cfg c6env (fun _ => false) (fun _ => true) 1 "t" "720" "u" =
      some { downloadAttempted := true, processTerminated := false,
             msg := some Msg.sentSuccessfully,
             actions := [DeliveryAction.sendVideoAttempt ⟨"t", "720", 240, 0, "u"⟩ none],
             tempFilesLeft := [] } := by
  decide

/-- Claim C6 (amended): a success report from process_video implies an
output file was found in the temp directory; the step does not check that
the found file is non-empty. -/
theorem success_implies_output_exists (cfg : Config) (env : Env)
    (cancelled finished : Nat → Bool) (fuel : Nat) (title resolutionStr url : String)
    (r : PipelineResult) (m : Msg)
    (hr : process_video cfg env cancelled finished fuel title resolutionStr url = some r)
    (hm : r.msg = some m)
    (hs : m = Msg.sentSuccessfully ∨ m = Msg.sentAsDocument) :
    ∃ v, selectOutput env.tempFiles = some v := by
  unfold process_video at hr
  cases hloop : monitorLoop cancelled finished 0 fuel with
  | running => rw [hloop] at hr; exact absurd hr (by simp)
  | cancelledAt i =>
    rw [hloop] at hr
    simp only [Option.some.injEq] at hr
    subst hr
    simp only [Option.some.injEq] at hm
    rcases hs with h | h <;> rw [h] at hm <;> exact Msg.noConfusion hm
  | completedAt i =>
    rw [hloop] at hr
    by_cases hcan : cancelled (i + 1) = true
    · simp only [hcan, if_true, Option.some.injEq] at hr
      subst hr
      simp at hm
    · rcases hAD : afterDownload cfg env title resolutionStr url with ⟨m', acts⟩
      rw [hAD] at hr
      simp [hcan] at hr
      subst hr
      simp only [Option.some.injEq] at hm
      unfold afterDownload at hAD
      cases hsel : selectOutput env.tempFiles with
      | none =>
        rw [hsel] at hAD
        simp only [Prod.mk.injEq] at hAD
        rw [← hm, ← hAD.1] at hs
        rcases hs with h | h <;> exact Msg.noConfusion h
      | some v => exact ⟨v, rfl⟩

/-- Witness for claim C6 amended theorem at a concrete successful run. -/
theorem success_implies_output_exists_witness :
    ∃ v, selectOutput c6wenv.tempFiles = some v :=
  success_implies_output_exists c6wcfg c6wenv (fun _ => false) (fun _ => true) 1 "t" "720" "u"
    c6wres Msg.sentSuccessfully (by decide) (by decide) (Or.inl rfl)

/-- Claim C7: the native send_video is attempted first; a FloodWait with
provider wait n produces exactly the trace try, sleep n plus one second,
retry (one retry, regardless of how the retry ends); a non-FloodWait
RPCError produces the fallback send_document with the same caption and
thumbnail; success and a non-provider error end as reported. -/
theorem deliver_fallback_policy (caption : Caption) (thumb : Option String)
    (retrySend : SendOutcome) (fallbackOk : Bool) (n : Nat) :
    deliver caption thumb SendOutcome.ok retrySend fallbackOk =
      ([DeliveryAction.sendVideoAttempt caption thumb], Msg.sentSuccessfully) ∧
    (deliver caption thumb (SendOutcome.floodWait n) retrySend fallbackOk).1 =
      [DeliveryAction.sendVideoAttempt caption thumb, DeliveryAction.sleepSeconds (n + 1),
        DeliveryAction.sendVideoAttempt caption thumb] ∧
    (deliver caption thumb SendOutcome.rpcError retrySend fallbackOk).1 =
      [DeliveryAction.sendVideoAttempt caption thumb,
        DeliveryAction.sendDocumentAttempt caption thumb] ∧
    deliver caption thumb SendOutcome.otherError retrySend fallbackOk =
      ([DeliveryAction.sendVideoAttempt caption thumb], Msg.uploadFailed) := by
  refine ⟨rfl, ?_, ?_, rfl⟩
  · cases retrySend <;> rfl
  · cases fallbackOk <;> rfl

/-- Claim C8: validate_cookies_file rejects any file smaller than 100 bytes
as too small and any file larger than one MiB as too large, regardless of
content, and acceptance forces the size into the inclusive window from 100
bytes to one MiB. -/
theorem validate_size_bounds (cf : CookiesFile) :
    (cf.size < 100 → validate_cookies_file (some cf) = (false, ValidateReason.tooSmall)) ∧
    (1024 * 1024 < cf.size → validate_cookies_file (some cf) = (false, ValidateReason.tooLarge)) ∧
    ((validate_cookies_file (some cf)).1 = true → 100 ≤ cf.size ∧ cf.size ≤ 1024 * 1024) := by
  refine ⟨?_, ?_, ?_⟩
  · intro h
    simp [validate_cookies_file, h]
  · intro h
    have h2 : ¬ cf.size < 100 := by omega
    simp [validate_cookies_file, h, h2]
  · intro h
    by_cases h1 : cf.size < 100
    · simp [validate_cookies_file, h1] at h
    · by_cases h2 : 1024 * 1024 < cf.size
      · simp [validate_cookies_file, h1, h2] at h
      · omega

/-- Witness for claim C8 at a 50-byte candidate. -/
theorem validate_size_bounds_witness :
    validate_cookies_file (some ⟨50, []⟩) = (false, ValidateReason.tooSmall) :=
  (validate_size_bounds ⟨50, []⟩).1 (by decide)

/-- Claim C9: any input whose lowercase form contains youtube.com or
youtu.be as a substring is accepted by validate_youtube_url, for every
possible behaviour of the structured regex patterns, and in particular when
none of them matches. -/
theorem url_substring_accepted (patternsMatch : List Char → Bool) (url : List Char)
    (h : hasSub (lower url) youtubeCom = true ∨ hasSub (lower url) youtuBe = true) :
    validate_youtube_url patternsMatch url = true := by
  have key : hasSub (lower (cleanUrl url)) youtubeCom = true ∨
      hasSub (lower (cleanUrl url)) youtuBe = true := by
    rcases h with h | h
    · left
      rw [hasSub_iff] at h ⊢
      exact seg_clean (by decide) (by decide) (by decide) (by decide) h
    · right
      rw [hasSub_iff] at h ⊢
      exact seg_clean (by decide) (by decide) (by decide) (by decide) h
  unfold validate_youtube_url
  by_cases hp : patternsMatch (cleanUrl url) = true
  · simp [hp]
  · rcases key with hk | hk <;> simp [hp, hk]

/-- Witness for claim C9: a string of shell commands around an upper-case
youtube.com occurrence is accepted even with no regex pattern matching. -/
theorem url_substring_accepted_witness :
    validate_youtube_url (fun _ => false) c9url = true :=
  url_substring_accepted (fun _ => false) c9url (Or.inl (by decide))

/-- Claim C10: with an empty allow-list every user id passes
check_user_access; with a non-empty allow-list a user passes exactly when
the decimal string form of the id is a member of the list. -/
theorem user_access_allowlist (allowed : List String) (uid : Nat) :
    (allowed = [] → check_user_access allowed uid = true) ∧
    (allowed ≠ [] → (check_user_access allowed uid = true ↔ toString uid ∈ allowed)) := by
  constructor
  · intro h
    simp [check_user_access, h]
  · intro h
    rw [check_user_access, if_neg (by simpa [List.isEmpty_iff] using h)]
    exact List.elem_iff

/-- Witness for claim C10 at a singleton allow-list. -/
theorem user_access_allowlist_witness :
    check_user_access ["42"] 42 = true :=
  ((user_access_allowlist ["42"] 42).2 (by decide)).mpr (by decide)

end YtBot
